import Mathlib

/-!
# Verification of the transcription pipeline (`src/lib/transcription.ts`)

A shallow embedding of the transcription orchestration pipeline:

* `retryOperation`   — the bounded-retry wrapper (source lines 42–56);
* the localStorage result cache (source lines 59–77);
* `convertTranscriptToSrt` / `formatSrtTime` — the SRT format converter
  (source lines 89–172);
* `simulateTranscription` — the fallback generator (source lines 174–199);
* `transcribeAudio`  — the orchestrator (source lines 202–389), modelled over
  an explicit environment capturing the behaviour of the external AWS
  collaborators (S3 upload, job submission, status polling, artifact fetch).

JavaScript numbers on the relevant paths (AWS item timestamps parsed with
`parseFloat`) are modelled as exact rationals `ℚ`; the specific numeric
literals appearing in the claims (`65.5`, `3661.001`, …) produce identical
results under IEEE-754 double semantics and under exact rational semantics,
which was checked separately for each literal.  JavaScript string falsiness
of the empty string is modelled by `Option` where the source relies on it.
-/

/-- JS `String.prototype.padStart(w, '0')`: left-pad with `'0'` up to width
`w`; strings already at least `w` long are returned unchanged. -/
def padStartZero (w : Nat) (s : String) : String :=
  if w ≤ s.length then s else String.mk (List.replicate (w - s.length) '0') ++ s

/-- Truncation toward zero, as performed implicitly by JS `%`. -/
def jsTrunc (q : ℚ) : ℤ := if q < 0 then ⌈q⌉ else ⌊q⌋

/-- JS `%` on numbers: `a - b * trunc (a / b)` (remainder with the sign of
the dividend). -/
def jsMod (a b : ℚ) : ℚ := a - b * jsTrunc (a / b)

/-- `formatSrtTime` (source lines 164–172): format a seconds value as
`HH:MM:SS,mmm` using `Math.floor` for every component. -/
def formatSrtTime (seconds : ℚ) : String :=
  let hours : ℤ := ⌊seconds / 3600⌋
  let minutes : ℤ := ⌊(jsMod seconds 3600) / 60⌋
  let secs : ℤ := ⌊jsMod seconds 60⌋
  let milliseconds : ℤ := ⌊(jsMod seconds 1) * 1000⌋
  padStartZero 2 (toString hours) ++ ":" ++ padStartZero 2 (toString minutes) ++ ":" ++
    padStartZero 2 (toString secs) ++ "," ++ padStartZero 3 (toString milliseconds)

/-- Modelled from the spec's words (for the refinement claim about time
formatting): `HH:MM:SS,mmm` where the whole-second part is decomposed with
integer division/modulus and the milliseconds are the truncated sub-second
part, every component zero-padded (2 digits, milliseconds 3 digits). -/
def formatSrtTimeSpec (q : ℚ) : String :=
  padStartZero 2 (toString (⌊q⌋ / 3600)) ++ ":" ++
    padStartZero 2 (toString (⌊q⌋ % 3600 / 60)) ++ ":" ++
    padStartZero 2 (toString (⌊q⌋ % 60)) ++ "," ++
    padStartZero 3 (toString (⌊q * 1000⌋ % 1000))

/-! ## Transcript data model

`RawTranscript` as consumed by `convertTranscriptToSrt` (source lines
89–162).  An item models one entry of `results.items`: its `type`, the text
`alternatives[0].content`, and `start_time` / `end_time`.  The timestamps are
strings in the JSON; the source only ever tests them for truthiness and feeds
them to `parseFloat`, so an absent-or-empty timestamp is modelled as `none`
and a parseable one as `some` of its numeric value. -/

structure TransItem where
  type : String
  content : String
  start_time : Option ℚ := none
  end_time : Option ℚ := none
deriving DecidableEq

/-- `results`: `transcripts` is the list of the `transcript` text fields and
`items` the timed item list; either may be absent (`undefined`). -/
structure TranscriptResults where
  transcripts : Option (List String) := none
  items : Option (List TransItem) := none
deriving DecidableEq

/-- A parsed transcript document (`transcriptData`). -/
structure TranscriptData where
  results : Option TranscriptResults := none
deriving DecidableEq

/-- One rendered SRT block `<idx>\n<start> --> <end>\n<text>\n\n` exactly as
emitted at source lines 144–146. -/
def renderBlock (idx : Nat) (st et : ℚ) (text : String) : String :=
  toString idx ++ "\n" ++ formatSrtTime st ++ " --> " ++ formatSrtTime et ++ "\n" ++
    text ++ "\n\n"

/-- Render a list of `(start, end, text)` blocks with consecutive indices
starting at `idx`. -/
def renderBlocksFrom (idx : Nat) : List (ℚ × ℚ × String) → String
  | [] => ""
  | (st, et, tx) :: rest => renderBlock idx st et tx ++ renderBlocksFrom (idx + 1) rest

/-- One iteration of the item walk (source lines 119–152) on the loop state
`(currentLine, startTime, endTime)`: returns the block emitted by this
iteration (if any) together with the state passed to the next iteration.
`isLast` is `i === items.length - 1`.  On emission the source resets
`currentLine` and `startTime` but not `endTime`. -/
def procCl (item : TransItem) (currentLine : String) : String :=
  if item.type = "pronunciation" then currentLine ++ item.content ++ " "
  else if item.type = "punctuation" then currentLine.trim ++ item.content
  else currentLine

def procSt (item : TransItem) (currentLine : String) (startTime : Option ℚ) :
    Option ℚ :=
  if item.type = "pronunciation" ∧ currentLine = "" then item.start_time
  else startTime

def procEt (item : TransItem) (endTime : Option ℚ) : Option ℚ :=
  if item.type = "pronunciation" then item.end_time else endTime

/-- `i === items.length - 1` is `isLast`; the sentence-boundary test of
source lines 134–137. -/
def emitCond (item : TransItem) (isLast : Bool) : Prop :=
  (item.type = "punctuation" ∧
    (item.content = "." ∨ item.content = "?" ∨ item.content = "!")) ∨ isLast = true

instance (item : TransItem) (isLast : Bool) : Decidable (emitCond item isLast) := by
  unfold emitCond
  infer_instance

def stepEmit (item : TransItem) (isLast : Bool) (currentLine : String)
    (startTime endTime : Option ℚ) :
    Option (ℚ × ℚ × String) × String × Option ℚ × Option ℚ :=
  if emitCond item isLast then
    match procSt item currentLine startTime, procEt item endTime with
    | some a, some b => (some (a, b, (procCl item currentLine).trim), "", none, some b)
    | none, _ => (none, procCl item currentLine, procSt item currentLine startTime,
        procEt item endTime)
    | _, none => (none, procCl item currentLine, procSt item currentLine startTime,
        procEt item endTime)
  else (none, procCl item currentLine, procSt item currentLine startTime,
    procEt item endTime)

/-- The item walk, producing the `srtContent` string accumulated by the loop
at source lines 119–153, starting from index `idx` and loop state
`(currentLine, startTime, endTime)`. -/
def srtLoop (idx : Nat) (currentLine : String) (startTime endTime : Option ℚ) :
    List TransItem → String
  | [] => ""
  | item :: rest =>
    match stepEmit item rest.isEmpty currentLine startTime endTime with
    | (some (a, b, tx), cl, st, et) =>
        renderBlock idx a b tx ++ srtLoop (idx + 1) cl st et rest
    | (none, cl, st, et) => srtLoop idx cl st et rest

/-- The blocks emitted by the item walk, in order. -/
def srtLoopBlocks (currentLine : String) (startTime endTime : Option ℚ) :
    List TransItem → List (ℚ × ℚ × String)
  | [] => []
  | item :: rest =>
    match stepEmit item rest.isEmpty currentLine startTime endTime with
    | (some blk, cl, st, et) => blk :: srtLoopBlocks cl st et rest
    | (none, cl, st, et) => srtLoopBlocks cl st et rest

/-- `convertTranscriptToSrt` (source lines 89–162).  Returns `""` when
`results` or `results.transcripts` is absent; emits the single fixed-window
subtitle when there are no timed items or when the walk produced nothing,
provided `transcripts` is non-empty; otherwise returns the walk's output. -/
def convertTranscriptToSrt (transcriptData : TranscriptData) : String :=
  match transcriptData.results with
  | none => ""
  | some results =>
    match results.transcripts with
    | none => ""
    | some transcripts =>
      let items := results.items.getD []
      if 0 < transcripts.length ∧ items.length = 0 then
        "1\n00:00:00,000 --> 00:05:00,000\n" ++ transcripts.headD "" ++ "\n\n"
      else
        let srtContent := srtLoop 1 "" none none items
        if srtContent = "" ∧ 0 < transcripts.length then
          "1\n00:00:00,000 --> 00:05:00,000\n" ++ transcripts.headD "" ++ "\n\n"
        else srtContent

/-! ## Result type, fallback generator, media format -/

/-- `TranscribeResult` (source lines 14–18); `rawTranscriptData` is optional. -/
structure TranscribeResult where
  srtContent : String
  duration : String
  rawTranscriptData : Option TranscriptData := none
deriving DecidableEq

/-- JS `fileName.replace(/\.[^/.]+$/, "")` (source line 180): drop a final
`.`‑segment when it is non-empty and contains neither `.` nor `/`. -/
def stripExtension (s : String) : String :=
  let rev := s.toList.reverse
  let suffix := rev.takeWhile (fun c => c ≠ '.')
  match rev.dropWhile (fun c => c ≠ '.') with
  | '.' :: before =>
    if suffix ≠ [] ∧ ¬ suffix.contains '/' then String.mk before.reverse else s
  | _ => s

/-- `simulateTranscription` (source lines 174–199): the fallback generator.
The template literal of the source is written here split at the block
boundaries (string concatenation is associative, the value is identical).
The ~2 s simulated delay is timing, not data, and is not modelled. -/
def simulateTranscription (fileName : String) : TranscribeResult :=
  let name := stripExtension fileName
  { srtContent :=
      "1\n00:00:00,000 --> 00:00:05,000\nThis is a simulated transcription for "
        ++ name ++ ".\n\n"
      ++ "2\n00:00:05,500 --> 00:00:10,000\nThe actual transcription service encountered an error.\n\n"
      ++ "3\n00:00:10,500 --> 00:00:15,000\nPlease check your AWS credentials and try again.\n\n"
  , duration := "0:15"
  , rawTranscriptData := none }

/-- JS `fileName.split('.').pop()` (source line 257).  `split('.')` cuts at
every `'.'` and `pop()` takes the last piece, so the result is the suffix
after the last `'.'`, or the whole string when it has no `'.'` (`pop()` on a
`split` result is never `undefined` since `split` always returns at least one
element). -/
def splitPopDot (s : String) : String :=
  String.mk ((s.toList.reverse.takeWhile (fun c => c ≠ '.')).reverse)

/-- JS `String.prototype.toLowerCase`, character-wise (ASCII-faithful). -/
def jsToLower (s : String) : String := String.mk (s.toList.map Char.toLower)

/-- The `MediaFormat` submitted with the job (source line 257):
`file.name.split('.').pop()?.toLowerCase() || 'mp3'`.  The only falsy value
the left operand can take is the empty string. -/
def mediaFormatOf (fileName : String) : String :=
  let popped := jsToLower (splitPopDot fileName)
  if popped = "" then "mp3" else popped

/-- The parameters of `startTranscriptionJob` (source lines 251–262). -/
structure TranscriptionParams where
  jobName : String
  languageCode : Option String
  identifyLanguage : Bool
  languageOptions : List String
  mediaFormat : String
  mediaFileUri : String
  outputBucket : String
deriving DecidableEq

/-- Builds `transcriptionParams` (source lines 247–262); `nowMs` is the
`Date.now()` value used for the job name, `fileKey` the S3 key of the upload. -/
def mkTranscriptionParams (nowMs : Nat) (bucket fileKey fileName language : String) :
    TranscriptionParams :=
  { jobName := "job-" ++ toString nowMs
  , languageCode := if language = "auto" then none else some language
  , identifyLanguage := language = "auto"
  , languageOptions := if language = "auto" then ["ta-IN", "en-US", "hi-IN"] else []
  , mediaFormat := mediaFormatOf fileName
  , mediaFileUri := "s3://" ++ bucket ++ "/" ++ fileKey
  , outputBucket := bucket }

/-! ## Retry wrapper

`retryOperation` (source lines 42–56).  The operation is modelled as a
function from the attempt number (1-based) to the outcome of that
invocation.  The model returns, besides the final outcome, the number of
invocations performed and the list of waits (in ms) executed between
attempts, so the claims about call counts and backoff are statable.  The
final `throw lastError` throws `undefined` when the loop never ran, hence
the error type `Option ε`.  The recursion is on the number of remaining
attempts: `fuel = maxRetries - attempt + 1`. -/
def retryAux (op : Nat → Except ε α) (delay : Nat) :
    Nat → Nat → Option ε → Except (Option ε) α × Nat × List Nat
  | 0, _, lastError => (Except.error lastError, 0, [])
  | fuel + 1, attempt, _ =>
    match op attempt with
    | Except.ok v => (Except.ok v, 1, [])
    | Except.error e =>
      let rest := retryAux op delay fuel (attempt + 1) (some e)
      (rest.1, rest.2.1 + 1, (if fuel ≠ 0 then [delay * attempt] else []) ++ rest.2.2)

/-- `retryOperation(operation, maxRetries = 3, delay = 1000)`. -/
def retryOperation (op : Nat → Except ε α) (maxRetries : Nat) (delay : Nat) :
    Except (Option ε) α × Nat × List Nat :=
  retryAux op delay maxRetries 1 none

/-! ## Result cache

`cacheTranscriptionResult` / `getCachedTranscription` (source lines 59–77).
The localStorage-backed JSON object is modelled as a map from file-hash
fingerprints to entries; `now` stands for `Date.now()`.  `Date.now() -
entry.timestamp` is compared with 24 h; a clock running backwards gives a
negative difference in JS, which also passes the `< 24h` test, exactly as
truncated `Nat` subtraction does here.  `getCachedTranscription` performs no
write (it is a pure read in the source as well: no `setItem`). -/
structure CacheEntry where
  result : TranscribeResult
  timestamp : Nat
deriving DecidableEq

def cacheTranscriptionResult (cache : String → Option CacheEntry) (now : Nat)
    (fileHash : String) (result : TranscribeResult) : String → Option CacheEntry :=
  fun k => if k = fileHash then some { result := result, timestamp := now } else cache k

def getCachedTranscription (cache : String → Option CacheEntry) (now : Nat)
    (fileHash : String) : Option TranscribeResult :=
  match cache fileHash with
  | some entry => if now - entry.timestamp < 24 * 60 * 60 * 1000 then some entry.result
    else none
  | none => none

/-! ## Polling loop

The polling loop of `transcribeAudio` (source lines 271–304).  One poll of
`getTranscriptionJob` either rejects, or resolves with an optional
`TranscriptionJob` value. -/

/-- The fields of `TranscriptionJob` read by the orchestrator. -/
structure Job where
  status : Option String := none
  failureReason : Option String := none
  transcriptUri : Option String := none
deriving DecidableEq

/-- Outcome of one `getTranscriptionJob` call: rejection, or a response whose
`TranscriptionJob` field may be absent. -/
inductive PollResult where
  | throwErr (msg : String)
  | ok (job : Option Job)
deriving DecidableEq

/-- The body of the `try`/`catch` inside the polling loop (source lines
282–299).  Returns `(caught?, jobComplete, transcriptionJob)` where `caught?`
is the message of an error that was thrown inside the `try` block and caught
by the `catch (pollError)` handler — including the `Transcription job
failed: …` error thrown at line 294, which is caught by that same handler at
line 296 (the loop then continues).  `transcriptionJob` is assigned before
the status checks, so it is updated even when the `FAILED` throw fires, but
not when the request itself rejected. -/
def pollIteration (res : PollResult) (lastJob : Option Job) :
    Option String × Bool × Option Job :=
  match res with
  | PollResult.throwErr msg => (some msg, false, lastJob)
  | PollResult.ok job =>
    match job with
    | some j =>
      if j.status = some "COMPLETED" then (none, true, some j)
      else if j.status = some "FAILED" then
        (some ("Transcription job failed: " ++ j.failureReason.getD "undefined"),
          false, some j)
      else (none, false, some j)
    | none => (none, false, none)

/-- How the polling phase ends: `jobComplete` with the last
`transcriptionJob`, or loop exhaustion followed by the
`Transcription job timed out after 5 minutes` throw at line 303.  Each
constructor records the number of polls performed. -/
inductive PollLoopOutcome where
  | completed (job : Option Job) (polls : Nat)
  | timedOut (polls : Nat)
deriving DecidableEq

/-- The `while (!jobComplete && pollCount < maxPolls)` loop; `fuel` is
`maxPolls - pollCount`. -/
def pollLoopGo (poll : Nat → PollResult) : Nat → Nat → Option Job → PollLoopOutcome
  | 0, pollCount, _ => PollLoopOutcome.timedOut pollCount
  | fuel + 1, pollCount, lastJob =>
    match pollIteration (poll (pollCount + 1)) lastJob with
    | (_, true, job) => PollLoopOutcome.completed job (pollCount + 1)
    | (_, false, job) => pollLoopGo poll fuel (pollCount + 1) job

/-- The polling phase with the source's `maxPolls = 60`; `poll n` is the
provider's response to the `n`-th status query. -/
def runPollingLoop (poll : Nat → PollResult) : PollLoopOutcome :=
  pollLoopGo poll 60 0 none

/-! ## Orchestrator -/

/-- `maxEndTime` (source lines 341–348): the maximum `end_time` over all
items, starting from 0; items without a (truthy) `end_time` are skipped. -/
def maxEndTime (transcriptData : TranscriptData) : ℚ :=
  match transcriptData.results with
  | some results =>
    (results.items.getD []).foldl
      (fun acc item =>
        match item.end_time with
        | some et => if acc < et then et else acc
        | none => acc) 0
  | none => 0

/-- The duration string (source lines 350–355): `minutes:seconds`, seconds
`Math.floor`ed and padded to 2 digits, minutes unpadded. -/
def durationOf (transcriptData : TranscriptData) : String :=
  toString ⌊maxEndTime transcriptData / 60⌋ ++ ":" ++
    padStartZero 2 (toString ⌊jsMod (maxEndTime transcriptData) 60⌋)

/-- The behaviour of the external collaborators during one pipeline run:
`upload n` is the outcome of the `n`-th S3 upload attempt (under the retry
wrapper), `startJob` the outcome of `startTranscriptionJob` for the given
parameters, `poll` the status responses, and `fetchParse uri` the combined
outcome of the transcript S3 `getObject` + UTF-8 decode + `JSON.parse`
(source lines 312–333; any throw in that inner `try` is its error case). -/
structure PipelineEnv where
  nowMs : Nat
  bucket : String
  upload : Nat → Except String Unit
  startJob : TranscriptionParams → Except String Unit
  poll : Nat → PollResult
  fetchParse : String → Except String TranscriptData

/-- The body of the outer `try` of `transcribeAudio` (source lines 207–364):
everything up to, but not including, the outer `catch`.  An `Except.error`
is a throw reaching the outer catch. -/
def runPipeline (env : PipelineEnv) (fileName language : String) :
    Except String TranscribeResult :=
  match (retryOperation env.upload 3 1000).1 with
  | Except.error e => Except.error (e.getD "undefined")
  | Except.ok _ =>
    match env.startJob (mkTranscriptionParams env.nowMs env.bucket
        ("transcription-inputs/" ++ toString env.nowMs ++ "-" ++ fileName) fileName
        language) with
    | Except.error e => Except.error e
    | Except.ok _ =>
      match runPollingLoop env.poll with
      | PollLoopOutcome.timedOut _ =>
        Except.error "Transcription job timed out after 5 minutes"
      | PollLoopOutcome.completed job _ =>
        match job.bind Job.transcriptUri with
        | some uri =>
          match env.fetchParse uri with
          | Except.error msg => Except.error ("Failed to fetch transcript data: " ++ msg)
          | Except.ok transcriptData =>
            Except.ok
              { srtContent := convertTranscriptToSrt transcriptData
              , duration := durationOf transcriptData
              , rawTranscriptData := some transcriptData }
        | none => Except.error "Could not retrieve transcription results"

/-- `transcribeAudio` (source lines 202–389): the outer `try`/`catch`; every
pipeline failure is swallowed and replaced by the simulated result. -/
def transcribeAudio (env : PipelineEnv) (fileName : String)
    (language : String) : TranscribeResult :=
  match runPipeline env fileName language with
  | Except.ok r => r
  | Except.error _ => simulateTranscription fileName

/-! ## Time formatter: bridge lemmas -/

lemma jsTrunc_of_nonneg {q : ℚ} (h : 0 ≤ q) : jsTrunc q = ⌊q⌋ := by
  unfold jsTrunc
  rw [if_neg (not_lt.2 h)]

lemma int_floor_div_nat (q : ℚ) (hq : 0 ≤ q) (n : ℕ) :
    ⌊q / (n : ℚ)⌋ = ⌊q⌋ / (n : ℤ) := by
  rw [← Int.natCast_floor_eq_floor hq, ← Int.natCast_floor_eq_floor (α := ℚ)
      (by positivity), Nat.floor_div_nat q n]
  exact Int.natCast_div _ _

lemma jsMod_of_nonneg (q : ℚ) (hq : 0 ≤ q) (n : ℕ) :
    jsMod q (n : ℚ) = q - (n : ℚ) * ⌊q / (n : ℚ)⌋ := by
  unfold jsMod
  rw [jsTrunc_of_nonneg (by positivity)]

lemma toString_int_ofNat (n : ℕ) : toString ((n : ℤ)) = toString n := rfl

/-- Bridge: on non-negative inputs the source formatter agrees with the
integer-division decomposition `formatSrtTimeSpec`. -/
theorem formatSrtTime_eq_spec (q : ℚ) (hq : 0 ≤ q) :
    formatSrtTime q = formatSrtTimeSpec q := by
  have h3600 : ⌊q / (3600 : ℚ)⌋ = ⌊q⌋ / 3600 := by
    have := int_floor_div_nat q hq 3600
    norm_num at this
    exact this
  have h60 : ⌊q / (60 : ℚ)⌋ = ⌊q⌋ / 60 := by
    have := int_floor_div_nat q hq 60
    norm_num at this
    exact this
  have hmin : ⌊jsMod q 3600 / 60⌋ = ⌊q⌋ % 3600 / 60 := by
    have e1 : jsMod q 3600 / 60 = q / 60 - ((60 * ⌊q / (3600 : ℚ)⌋ : ℤ) : ℚ) := by
      unfold jsMod
      rw [jsTrunc_of_nonneg (by positivity)]
      push_cast
      ring
    rw [e1, Int.floor_sub_int, h60, h3600]
    have hT : 0 ≤ ⌊q⌋ := Int.floor_nonneg.2 hq
    omega
  have hsec : ⌊jsMod q 60⌋ = ⌊q⌋ % 60 := by
    have e1 : jsMod q 60 = q - ((60 * ⌊q / (60 : ℚ)⌋ : ℤ) : ℚ) := by
      unfold jsMod
      rw [jsTrunc_of_nonneg (by positivity)]
      push_cast
      ring
    rw [e1, Int.floor_sub_int, h60]
    have hT : 0 ≤ ⌊q⌋ := Int.floor_nonneg.2 hq
    omega
  have hms : ⌊jsMod q 1 * 1000⌋ = ⌊q * 1000⌋ % 1000 := by
    have e1 : jsMod q 1 * 1000 = q * 1000 - ((1000 * ⌊q⌋ : ℤ) : ℚ) := by
      unfold jsMod
      rw [jsTrunc_of_nonneg (by positivity), div_one]
      push_cast
      ring
    rw [e1, Int.floor_sub_int]
    have h1000 : ⌊q⌋ = ⌊q * 1000⌋ / 1000 := by
      have := int_floor_div_nat (q * 1000) (by positivity) 1000
      norm_num at this
      exact this
    omega
  unfold formatSrtTime formatSrtTimeSpec
  rw [h3600, hmin, hsec, hms]

/-- The walk's string output is exactly its block list rendered with
consecutive indices. -/
lemma srtLoop_eq_renderBlocks :
    ∀ (items : List TransItem) (idx : Nat) (cl : String) (st et : Option ℚ),
      srtLoop idx cl st et items = renderBlocksFrom idx (srtLoopBlocks cl st et items) := by
  intro items
  induction items with
  | nil => intro idx cl st et; rfl
  | cons item rest ih =>
    intro idx cl st et
    unfold srtLoop srtLoopBlocks
    rcases h : stepEmit item rest.isEmpty cl st et with ⟨emitted, cl1, st1, et1⟩
    cases emitted with
    | some blk =>
      rcases blk with ⟨a, b, tx⟩
      simp only [ih, renderBlocksFrom]
    | none => simp only [ih]

lemma formatSrtTime_zero : formatSrtTime 0 = "00:00:00,000" := by
  rw [formatSrtTime_eq_spec _ (by norm_num)]
  unfold formatSrtTimeSpec
  norm_num
  decide

lemma formatSrtTime_300 : formatSrtTime 300 = "00:05:00,000" := by
  rw [formatSrtTime_eq_spec _ (by norm_num)]
  unfold formatSrtTimeSpec
  norm_num
  decide

/-- The fixed-window fallback string of the converter is itself a rendered
block list: one block, index 1, spanning 0 s to 300 s. -/
lemma fixed_window_as_blocks (tx : String) :
    "1\n00:00:00,000 --> 00:05:00,000\n" ++ tx ++ "\n\n"
      = renderBlocksFrom 1 [(0, 300, tx)] := by
  unfold renderBlocksFrom renderBlock
  rw [formatSrtTime_zero, formatSrtTime_300]
  rw [show renderBlocksFrom (1 + 1) [] = "" from rfl, String.append_empty]
  rw [show toString (1 : Nat) ++ "\n" ++ "00:00:00,000" ++ " --> " ++ "00:05:00,000"
    ++ "\n" = "1\n00:00:00,000 --> 00:05:00,000\n" from by decide]

/-! ## Retry wrapper: claims -/

lemma retryAux_invocations_le (op : Nat → Except ε α) (delay : Nat) :
    ∀ (fuel attempt : Nat) (le : Option ε),
      (retryAux op delay fuel attempt le).2.1 ≤ fuel := by
  intro fuel
  induction fuel with
  | zero => intro attempt le; simp [retryAux]
  | succ n ih =>
    intro attempt le
    unfold retryAux
    cases op attempt with
    | ok v => simp
    | error e => simpa using ih (attempt + 1) (some e)

lemma retryAux_invocations_pos (op : Nat → Except ε α) (delay : Nat)
    (fuel attempt : Nat) (le : Option ε) :
    (retryAux op delay (fuel + 1) attempt le).2.1 ≥ 1 := by
  unfold retryAux
  cases op attempt with
  | ok v => simp
  | error e => simp

lemma retryAux_waits (op : Nat → Except ε α) (delay : Nat) :
    ∀ (fuel attempt : Nat) (le : Option ε),
      (retryAux op delay fuel attempt le).2.2 =
        (List.range' attempt ((retryAux op delay fuel attempt le).2.1 - 1)).map
          (fun n => delay * n) := by
  intro fuel
  induction fuel with
  | zero => intro attempt le; simp [retryAux]
  | succ n ih =>
    intro attempt le
    unfold retryAux
    cases h : op attempt with
    | ok v => simp
    | error e =>
      by_cases hn : n = 0
      · subst hn
        have h0 : (retryAux op delay 0 (attempt + 1) (some e)).2.1 = 0 := by
          simp [retryAux]
        have h0w : (retryAux op delay 0 (attempt + 1) (some e)).2.2 = [] := by
          simp [retryAux]
        simp [h0, h0w]
      · have hpos : (retryAux op delay n (attempt + 1) (some e)).2.1 ≥ 1 := by
          rcases Nat.exists_eq_succ_of_ne_zero hn with ⟨m, rfl⟩
          exact retryAux_invocations_pos op delay m (attempt + 1) (some e)
        simp only [if_neg, hn, ite_true, ite_false, ne_eq, not_false_iff]
        rw [ih (attempt + 1) (some e)]
        have harith : (retryAux op delay n (attempt + 1) (some e)).2.1 + 1 - 1
            = ((retryAux op delay n (attempt + 1) (some e)).2.1 - 1) + 1 := by omega
        rw [harith, List.range'_succ]
        simp

lemma retryAux_success (op : Nat → Except ε α) (delay : Nat) :
    ∀ (fuel attempt : Nat) (le : Option ε) (n : Nat) (v : α),
      attempt ≤ n → n < attempt + fuel → op n = Except.ok v →
      (∀ m, attempt ≤ m → m < n → (op m).isOk = false) →
      (retryAux op delay fuel attempt le).1 = Except.ok v ∧
        (retryAux op delay fuel attempt le).2.1 = n + 1 - attempt := by
  intro fuel
  induction fuel with
  | zero => intro attempt le n v h1 h2 h3 h4; omega
  | succ k ih =>
    intro attempt le n v h1 h2 h3 h4
    unfold retryAux
    rcases Nat.eq_or_lt_of_le h1 with heq | hlt
    · subst heq
      rw [h3]
      simp
    · have hfail : (op attempt).isOk = false := h4 attempt le_rfl hlt
      cases hop : op attempt with
      | ok w => rw [hop] at hfail; simp [Except.isOk, Except.toBool] at hfail
      | error e =>
        have hrec := ih (attempt + 1) (some e) n v hlt (by omega) h3
          (fun m hm1 hm2 => h4 m (by omega) hm2)
        refine ⟨hrec.1, ?_⟩
        show (retryAux op delay k (attempt + 1) (some e)).2.1 + 1 = n + 1 - attempt
        rw [hrec.2]
        omega

lemma retryAux_allfail (op : Nat → Except ε α) (delay : Nat) :
    ∀ (fuel attempt : Nat) (le : Option ε) (e : ε),
      1 ≤ fuel →
      (∀ m, attempt ≤ m → m < attempt + fuel → (op m).isOk = false) →
      op (attempt + fuel - 1) = Except.error e →
      (retryAux op delay fuel attempt le).1 = Except.error (some e) ∧
        (retryAux op delay fuel attempt le).2.1 = fuel := by
  intro fuel
  induction fuel with
  | zero => intro attempt le e h1; omega
  | succ k ih =>
    intro attempt le e h1 h2 h3
    unfold retryAux
    have hfail : (op attempt).isOk = false := h2 attempt le_rfl (by omega)
    cases hop : op attempt with
    | ok w => rw [hop] at hfail; simp [Except.isOk, Except.toBool] at hfail
    | error e1 =>
      cases k with
      | zero =>
        have hh : attempt + (0 + 1) - 1 = attempt := by omega
        rw [hh, hop] at h3
        cases h3
        simp [retryAux]
      | succ k1 =>
        have hrec := ih (attempt + 1) (some e1) e (by omega)
          (fun m hm1 hm2 => h2 m (by omega) (by omega))
          (by have hh : attempt + 1 + (k1 + 1) - 1 = attempt + (k1 + 1 + 1) - 1 := by
                omega
              rw [hh]; exact h3)
        refine ⟨hrec.1, ?_⟩
        show (retryAux op delay (k1 + 1) (attempt + 1) (some e1)).2.1 + 1 = k1 + 1 + 1
        rw [hrec.2]

/-- C3: the Retry Wrapper invokes the operation at most `maxRetries` times;
the waits executed are exactly `delay * n` after each failed attempt
`n < maxRetries` (linear backoff); a first success at attempt `n` returns
its value after exactly `n` invocations; if every attempt fails, the last
error is re-raised after exactly `maxRetries` invocations. -/
theorem retryOperation_spec (op : Nat → Except ε α) (maxRetries delay : Nat) :
    (retryOperation op maxRetries delay).2.1 ≤ maxRetries ∧
    (retryOperation op maxRetries delay).2.2 =
      (List.range' 1 ((retryOperation op maxRetries delay).2.1 - 1)).map
        (fun n => delay * n) ∧
    (∀ n v, n ≤ maxRetries → 1 ≤ n → op n = Except.ok v →
      (∀ m, m < n → 1 ≤ m → (op m).isOk = false) →
      (retryOperation op maxRetries delay).1 = Except.ok v ∧
        (retryOperation op maxRetries delay).2.1 = n) ∧
    (∀ e, 1 ≤ maxRetries → (∀ m, m < maxRetries + 1 → 1 ≤ m → (op m).isOk = false) →
      op maxRetries = Except.error e →
      (retryOperation op maxRetries delay).1 = Except.error (some e) ∧
        (retryOperation op maxRetries delay).2.1 = maxRetries) := by
  refine ⟨retryAux_invocations_le op delay maxRetries 1 none,
    retryAux_waits op delay maxRetries 1 none, ?_, ?_⟩
  · intro n v hn h1 hok hfail
    have h := retryAux_success op delay maxRetries 1 none n v h1 (by omega) hok
      (fun m hm1 hm2 => hfail m hm2 hm1)
    refine ⟨h.1, ?_⟩
    show (retryAux op delay maxRetries 1 none).2.1 = n
    rw [h.2]
    omega
  · intro e hmax hfail herr
    have h := retryAux_allfail op delay maxRetries 1 none e hmax
      (fun m hm1 hm2 => hfail m (by omega) hm1)
      (by have hh : 1 + maxRetries - 1 = maxRetries := by omega
          rw [hh]; exact herr)
    exact h

/-- Witness for C3: an operation failing twice then succeeding on the third
attempt (with `maxRetries = 3`, `delay = 1000`) returns the success value
after exactly 3 invocations, having waited 1000 ms and then 2000 ms; and an
always-failing operation re-raises its final error after exactly 3
invocations. -/
theorem retryOperation_spec_witness :
    (retryOperation (fun n => if n = 3 then Except.ok 42 else Except.error "boom")
        3 1000).1 = Except.ok 42 ∧
    (retryOperation (fun n => if n = 3 then Except.ok 42 else Except.error "boom")
        3 1000).2.1 = 3 ∧
    (retryOperation (fun n => if n = 3 then Except.ok 42 else Except.error "boom")
        3 1000).2.2 = [1000, 2000] ∧
    (retryOperation (fun _ => (Except.error "down" : Except String Nat)) 3 1000).1 =
      Except.error (some "down") ∧
    (retryOperation (fun _ => (Except.error "down" : Except String Nat)) 3 1000).2.1 = 3 := by
  have hs := (retryOperation_spec
    (fun n => if n = 3 then Except.ok 42 else Except.error "boom") 3 1000).2.2.1 3 42
    (by decide) (by decide) rfl (by decide)
  have hw := (retryOperation_spec
    (fun n => if n = 3 then Except.ok 42 else Except.error "boom") 3 1000).2.1
  have hf := (retryOperation_spec
    (fun _ => (Except.error "down" : Except String Nat)) 3 1000).2.2.2 "down"
    (by decide) (by decide) rfl
  refine ⟨hs.1, hs.2, ?_, hf.1, hf.2⟩
  rw [hw, hs.2]
  decide

/-! ## Cache: claims -/

/-- C8: `get` returns the stored result iff an entry exists and
`now - timestamp < 24 h` (and performs no write — it is a pure function of
the store); `put` unconditionally overwrites the entry for the fingerprint
with the new result and the current time, leaving other keys untouched; a
`put` followed by a `get` within 24 h returns the stored value, and a `get`
24 h + 1 ms after the `put` reports absent. -/
theorem cache_spec (cache : String → Option CacheEntry) (fp : String)
    (r : TranscribeResult) (tput tget : Nat) :
    (∀ res, getCachedTranscription cache tget fp = some res ↔
      ∃ entry, cache fp = some entry ∧ tget - entry.timestamp < 24 * 60 * 60 * 1000 ∧
        entry.result = res) ∧
    cacheTranscriptionResult cache tput fp r fp = some { result := r, timestamp := tput } ∧
    (∀ k, k ≠ fp → cacheTranscriptionResult cache tput fp r k = cache k) ∧
    (tget - tput < 24 * 60 * 60 * 1000 →
      getCachedTranscription (cacheTranscriptionResult cache tput fp r) tget fp = some r) ∧
    (tget = tput + (24 * 60 * 60 * 1000 + 1) →
      getCachedTranscription (cacheTranscriptionResult cache tput fp r) tget fp = none) := by
  refine ⟨?_, ?_, ?_, ?_, ?_⟩
  · intro res
    unfold getCachedTranscription
    cases hc : cache fp with
    | none => simp
    | some entry =>
      constructor
      · intro h
        have h1 : (if tget - entry.timestamp < 24 * 60 * 60 * 1000 then
            some entry.result else none) = some res := h
        by_cases hfresh : tget - entry.timestamp < 24 * 60 * 60 * 1000
        · rw [if_pos hfresh] at h1
          exact ⟨entry, rfl, hfresh, Option.some.inj h1⟩
        · rw [if_neg hfresh] at h1
          cases h1
      · rintro ⟨entry1, he, hfresh, hres⟩
        injection he with he1
        subst he1
        show (if tget - entry.timestamp < 24 * 60 * 60 * 1000 then
          some entry.result else none) = some res
        rw [if_pos hfresh, hres]
  · unfold cacheTranscriptionResult
    simp
  · intro k hk
    unfold cacheTranscriptionResult
    simp [hk]
  · intro hfresh
    unfold getCachedTranscription cacheTranscriptionResult
    simp [hfresh]
  · intro hstale
    subst hstale
    unfold getCachedTranscription cacheTranscriptionResult
    have hk : (if fp = fp then
        some ({ result := r, timestamp := tput } : CacheEntry) else cache fp)
        = some { result := r, timestamp := tput } := if_pos rfl
    rw [hk]
    show (if tput + (24 * 60 * 60 * 1000 + 1) - tput < 24 * 60 * 60 * 1000 then
      some r else none) = none
    rw [if_neg (by omega)]

/-- Witness for C8: with an empty store, a `put` at time 0 followed by a
`get` at 24 h − 1 ms returns the stored result, and a `get` at 24 h + 1 ms
reports absent. -/
theorem cache_spec_witness :
    getCachedTranscription
      (cacheTranscriptionResult (fun _ => none) 0 "abc"
        { srtContent := "s", duration := "0:01" })
      86399999 "abc" = some { srtContent := "s", duration := "0:01" } ∧
    getCachedTranscription
      (cacheTranscriptionResult (fun _ => none) 0 "abc"
        { srtContent := "s", duration := "0:01" })
      86400001 "abc" = none := by
  have h1 := (cache_spec (fun _ => none) "abc"
    { srtContent := "s", duration := "0:01" } 0 86399999).2.2.2.1 (by decide)
  have h2 := (cache_spec (fun _ => none) "abc"
    { srtContent := "s", duration := "0:01" } 0 86400001).2.2.2.2 (by decide)
  exact ⟨h1, h2⟩

/-! ## Media format: claims -/

lemma takeWhile_ne_dot_append (l1 l2 : List Char) (h : ∀ c ∈ l1, c ≠ '.') :
    ((l1 ++ '.' :: l2).takeWhile (fun c => decide (c ≠ '.'))) = l1 := by
  induction l1 with
  | nil => simp
  | cons a l ih =>
    have ha : a ≠ '.' := h a (by simp)
    simp only [List.cons_append, List.takeWhile_cons, decide_eq_true_eq, ha,
      not_false_iff, ite_true, if_pos]
    rw [ih (fun c hc => h c (by simp [hc]))]
    simp [ha]

lemma string_mk_toList (s : String) : String.mk s.toList = s := rfl

lemma splitPopDot_append_dot (pre suf : String) (h : ∀ c ∈ suf.toList, c ≠ '.') :
    splitPopDot (pre ++ "." ++ suf) = suf := by
  unfold splitPopDot
  have hdata : (pre ++ "." ++ suf).toList = pre.toList ++ '.' :: suf.toList := by
    show (pre ++ "." ++ suf).data = pre.data ++ '.' :: suf.data
    rw [String.data_append, String.data_append]
    simp [show ("." : String).data = ['.'] from rfl]
  rw [hdata, List.reverse_append, List.reverse_cons, List.append_assoc,
    List.singleton_append]
  rw [takeWhile_ne_dot_append _ _ (fun c hc => h c (by
    rw [List.mem_reverse] at hc
    exact hc))]
  rw [List.reverse_reverse]
  exact string_mk_toList suf

lemma splitPopDot_no_dot (name : String) (h : ∀ c ∈ name.toList, c ≠ '.') :
    splitPopDot name = name := by
  unfold splitPopDot
  have ht : name.toList.reverse.takeWhile (fun c => decide (c ≠ '.'))
      = name.toList.reverse := by
    rw [List.takeWhile_eq_self_iff]
    intro c hc
    rw [List.mem_reverse] at hc
    simp [h c hc]
  rw [ht, List.reverse_reverse]
  exact string_mk_toList name

lemma jsToLower_ne_empty (name : String) (h : name ≠ "") : jsToLower name ≠ "" := by
  intro hcon
  apply h
  unfold jsToLower at hcon
  have h1 : (name.toList.map Char.toLower) = [] := by
    have := congrArg String.data hcon
    exact this
  have h2 : name.toList = [] := List.map_eq_nil_iff.mp h1
  have : name = String.mk name.toList := rfl
  rw [this, h2]

/-- C7 counterexample: the filename `audio` has no extension, yet the media
format submitted with the job is `audio` (the whole filename, lowercased),
not the claimed default `mp3`. -/
theorem mediaFormat_no_extension_counterexample :
    (mkTranscriptionParams 0 "bucket" "key" "audio" "en-US").mediaFormat = "audio" ∧
    ("audio" : String) ≠ "mp3" := by
  constructor
  · rfl
  · decide

/-- C7 amended: the media format submitted with the job is the lowercased
last `'.'`-separated segment of the filename: for a filename with an
extension (a non-empty suffix after its last dot) it is that suffix
lowercased; for a dot-free non-empty filename it is the whole filename
lowercased (not `mp3`); the `mp3` default applies exactly when that last
segment is empty, i.e. for the empty filename or one ending in `'.'`. -/
theorem mediaFormat_amended :
    (∀ nowMs bucket fileKey fileName language,
      (mkTranscriptionParams nowMs bucket fileKey fileName language).mediaFormat
        = mediaFormatOf fileName) ∧
    (∀ pre suf : String, (∀ c ∈ suf.toList, c ≠ '.') → suf ≠ "" →
      mediaFormatOf (pre ++ "." ++ suf) = jsToLower suf) ∧
    (∀ name : String, (∀ c ∈ name.toList, c ≠ '.') → name ≠ "" →
      mediaFormatOf name = jsToLower name) ∧
    (∀ pre : String, mediaFormatOf (pre ++ ".") = "mp3") ∧
    mediaFormatOf "" = "mp3" := by
  refine ⟨fun _ _ _ _ _ => rfl, ?_, ?_, ?_, rfl⟩
  · intro pre suf hnd hne
    unfold mediaFormatOf
    rw [splitPopDot_append_dot pre suf hnd]
    rw [if_neg (jsToLower_ne_empty suf hne)]
  · intro name hnd hne
    unfold mediaFormatOf
    rw [splitPopDot_no_dot name hnd]
    rw [if_neg (jsToLower_ne_empty name hne)]
  · intro pre
    unfold mediaFormatOf
    have h1 : splitPopDot (pre ++ ".") = "" := by
      have := splitPopDot_append_dot pre "" (by intro c hc; cases hc)
      rw [String.append_empty] at this
      exact this
    rw [h1]
    rfl

/-- Witness for the amended C7: `song.MP3` submits media format `mp3`
(the lowercased extension), and `song.` (empty last segment) falls back to
the default `mp3`. -/
theorem mediaFormat_amended_witness :
    mediaFormatOf ("song" ++ "." ++ "MP3") = jsToLower "MP3" ∧
    mediaFormatOf ("song" ++ ".") = "mp3" ∧ jsToLower "MP3" = "mp3" := by
  have h1 := mediaFormat_amended.2.1 "song" "MP3" (by decide) (by decide)
  have h2 := mediaFormat_amended.2.2.2.1 "song"
  exact ⟨h1, h2, by decide⟩

/-! ## Polling loop: claims -/

/-- C2 (code bug evidence): a provider status of `FAILED` does *not*
terminate the polling loop.  The `throw new Error('Transcription job
failed: …')` at source line 294 sits inside the same `try` block whose
`catch (pollError)` (line 296, "Continue polling despite errors") catches
it, so the iteration merely logs the JobFailed message — which does capture
the provider's failure reason — and polling continues; with `FAILED`
reported from the very first poll the loop runs all 60 iterations and ends
with the distinct timeout error.  By contrast, 60 consecutive `IN_PROGRESS`
statuses time out as claimed, and a transient status-query failure is
caught and polling continues. -/
theorem pollLoop_failed_swallowed :
    runPollingLoop (fun _ =>
      PollResult.ok (some { status := some "FAILED", failureReason := some "boom" }))
      = PollLoopOutcome.timedOut 60 ∧
    (pollIteration
      (PollResult.ok (some { status := some "FAILED", failureReason := some "boom" }))
      none).1 = some ("Transcription job failed: " ++ "boom") ∧
    runPollingLoop (fun _ =>
      PollResult.ok (some { status := some "IN_PROGRESS" }))
      = PollLoopOutcome.timedOut 60 ∧
    runPollingLoop (fun n => if n = 1 then PollResult.throwErr "network error"
      else PollResult.ok (some { status := some "COMPLETED", transcriptUri := some "u" }))
      = PollLoopOutcome.completed
          (some { status := some "COMPLETED", transcriptUri := some "u" }) 2 := by
  refine ⟨by decide, by decide, by decide, by decide⟩

/-! ## Format converter: claims -/

/-- C4: the converter's degenerate cases.  (1) Without a `results` /
`results.transcripts` structure the output is the empty string.  (2) With a
non-empty full-text transcript and zero timed items the output is exactly the
one fixed-window subtitle `00:00:00,000 --> 00:05:00,000` holding the full
text.  (3) The same single fixed-window subtitle results whenever the item
walk emits nothing while a full-text transcript exists. -/
theorem convertTranscriptToSrt_degenerate :
    (∀ t : TranscriptData,
      (t.results = none ∨ ∃ res, t.results = some res ∧ res.transcripts = none) →
      convertTranscriptToSrt t = "") ∧
    (∀ (res : TranscriptResults) (ft : String) (rest : List String),
      res.transcripts = some (ft :: rest) → ft ≠ "" → res.items.getD [] = [] →
      convertTranscriptToSrt { results := some res }
        = "1\n00:00:00,000 --> 00:05:00,000\n" ++ ft ++ "\n\n") ∧
    (∀ (res : TranscriptResults) (ft : String) (rest : List String),
      res.transcripts = some (ft :: rest) →
      srtLoop 1 "" none none (res.items.getD []) = "" →
      convertTranscriptToSrt { results := some res }
        = "1\n00:00:00,000 --> 00:05:00,000\n" ++ ft ++ "\n\n") := by
  refine ⟨?_, ?_, ?_⟩
  · rintro t (hnone | ⟨res, hres, htr⟩)
    · simp only [convertTranscriptToSrt, hnone]
    · simp only [convertTranscriptToSrt, hres, htr]
  · intro res ft rest htr _ hitems
    simp only [convertTranscriptToSrt, htr, hitems]
    rw [if_pos ⟨by simp, rfl⟩]
    simp
  · intro res ft rest htr hloop
    simp only [convertTranscriptToSrt, htr]
    by_cases hitems : res.items.getD [] = []
    · rw [hitems, if_pos ⟨by simp, rfl⟩]
      simp
    · rw [if_neg ?_]
      · rw [hloop, if_pos ⟨rfl, by simp⟩]
        simp
      · rintro ⟨_, hlen⟩
        exact hitems (List.length_eq_zero.mp hlen)

/-- Witness for C4: a concrete transcript with no `results` converts to the
empty string; a concrete transcript with full text `"hello world"` and no
timed items converts to exactly the single fixed-window subtitle. -/
theorem convertTranscriptToSrt_degenerate_witness :
    convertTranscriptToSrt { results := none } = "" ∧
    convertTranscriptToSrt
        { results := some { transcripts := some ["hello world"], items := none } }
      = "1\n00:00:00,000 --> 00:05:00,000\n" ++ "hello world" ++ "\n\n" := by
  constructor
  · exact convertTranscriptToSrt_degenerate.1 { results := none } (Or.inl rfl)
  · exact convertTranscriptToSrt_degenerate.2.1
      { transcripts := some ["hello world"], items := none } "hello world" []
      rfl (by decide) rfl

/-- C5: for every transcript the converter's output is a list of blocks
rendered with consecutive 1-based indices — the first emitted block is
numbered 1 and each later block's number is one greater than its
predecessor's, with no gaps (the empty output corresponds to the empty block
list). -/
theorem convertTranscriptToSrt_indices_dense (t : TranscriptData) :
    ∃ bs : List (ℚ × ℚ × String),
      convertTranscriptToSrt t = renderBlocksFrom 1 bs := by
  cases t with
  | mk results =>
    cases results with
    | none => exact ⟨[], rfl⟩
    | some res =>
      cases htr : res.transcripts with
      | none =>
        refine ⟨[], ?_⟩
        simp only [convertTranscriptToSrt, htr]
        rfl
      | some transcripts =>
        by_cases h1 : 0 < transcripts.length ∧ (res.items.getD []).length = 0
        · refine ⟨[(0, 300, transcripts.headD "")], ?_⟩
          simp only [convertTranscriptToSrt, htr]
          rw [if_pos h1]
          exact fixed_window_as_blocks _
        · by_cases h2 : srtLoop 1 "" none none (res.items.getD []) = "" ∧
              0 < transcripts.length
          · refine ⟨[(0, 300, transcripts.headD "")], ?_⟩
            simp only [convertTranscriptToSrt, htr]
            rw [if_neg h1, if_pos h2]
            exact fixed_window_as_blocks _
          · refine ⟨srtLoopBlocks "" none none (res.items.getD []), ?_⟩
            simp only [convertTranscriptToSrt, htr]
            rw [if_neg h1, if_neg h2]
            exact srtLoop_eq_renderBlocks _ 1 "" none none

/-! ## Emission invariants of the item walk -/

lemma append_ne_empty_right (a b : String) (hb : b ≠ "") : a ++ b ≠ "" := by
  intro h
  apply hb
  have hd := congrArg String.data h
  rw [String.data_append] at hd
  have hb2 := List.append_eq_nil.mp hd
  have hmk : b = String.mk b.data := rfl
  rw [hmk, hb2.2]

/-- One walk iteration either emits nothing and passes the processed state
on, or — only under the sentence-boundary/last-item condition, with both a
recorded start and end time — emits the block
`(start, end, trimmed line)` and resets the line and the start (but not the
end) time. -/
lemma stepEmit_cases (item : TransItem) (isLast : Bool) (cl : String)
    (st et : Option ℚ) :
    (stepEmit item isLast cl st et
        = (none, procCl item cl, procSt item cl st, procEt item et)) ∨
    (∃ a b, procSt item cl st = some a ∧ procEt item et = some b ∧
      emitCond item isLast ∧
      stepEmit item isLast cl st et
        = (some (a, b, (procCl item cl).trim), "", none, some b)) := by
  unfold stepEmit
  by_cases hc : emitCond item isLast
  · rw [if_pos hc]
    cases hst : procSt item cl st with
    | none =>
      left
      cases het : procEt item et with
      | none => rfl
      | some b => rfl
    | some a =>
      cases het : procEt item et with
      | none =>
        left
        rfl
      | some b =>
        right
        exact ⟨a, b, rfl, rfl, hc, rfl⟩
  · left
    rw [if_neg hc]

lemma srtLoop_cons (item : TransItem) (rest : List TransItem) (idx : Nat)
    (cl : String) (st et : Option ℚ) :
    srtLoop idx cl st et (item :: rest) =
      match stepEmit item rest.isEmpty cl st et with
      | (some (a, b, tx), cl1, st1, et1) =>
          renderBlock idx a b tx ++ srtLoop (idx + 1) cl1 st1 et1 rest
      | (none, cl1, st1, et1) => srtLoop idx cl1 st1 et1 rest := rfl

lemma srtLoopBlocks_cons (item : TransItem) (rest : List TransItem)
    (cl : String) (st et : Option ℚ) :
    srtLoopBlocks cl st et (item :: rest) =
      match stepEmit item rest.isEmpty cl st et with
      | (some blk, cl1, st1, et1) => blk :: srtLoopBlocks cl1 st1 et1 rest
      | (none, cl1, st1, et1) => srtLoopBlocks cl1 st1 et1 rest := rfl

lemma procSt_not_restart (item : TransItem) (cl : String) (st : Option ℚ)
    (h : ¬(item.type = "pronunciation" ∧ cl = "")) : procSt item cl st = st := by
  unfold procSt
  rw [if_neg h]

lemma procSt_pron_empty (item : TransItem) (st : Option ℚ)
    (hp : item.type = "pronunciation") : procSt item "" st = item.start_time := by
  unfold procSt
  rw [if_pos ⟨hp, rfl⟩]

lemma procEt_non_pron (item : TransItem) (et : Option ℚ)
    (hp : item.type ≠ "pronunciation") : procEt item et = et := by
  unfold procEt
  rw [if_neg hp]

lemma procCl_pron (item : TransItem) (cl : String)
    (hp : item.type = "pronunciation") : procCl item cl = cl ++ item.content ++ " " := by
  unfold procCl
  rw [if_pos hp]

lemma procCl_inert (item : TransItem) (cl : String)
    (h1 : item.type ≠ "pronunciation") (h2 : item.type ≠ "punctuation") :
    procCl item cl = cl := by
  unfold procCl
  rw [if_neg h1, if_neg h2]

/-- The processed line is non-empty whenever the incoming line is non-empty
and punctuation items carry non-empty text — and always after a
pronunciation item. -/
lemma procCl_ne_empty (item : TransItem) (cl : String)
    (hne : item.type = "pronunciation" ∨ cl ≠ "")
    (hpc : item.type = "punctuation" → item.content ≠ "") :
    procCl item cl ≠ "" := by
  unfold procCl
  split
  · exact append_ne_empty_right _ " " (by decide)
  · next hp =>
    split
    · next hq => exact append_ne_empty_right _ _ (hpc hq)
    · rcases hne with hne | hne
      · exact absurd hne hp
      · exact hne

/-- A walk segment whose `startTime` is unset and whose accumulated line is
non-empty (so no pronunciation item can record a new start) emits no block,
provided punctuation items carry non-empty text. -/
lemma srtLoopBlocks_no_start (items : List TransItem) :
    ∀ (cl : String) (et : Option ℚ), cl ≠ "" →
      (∀ i ∈ items, i.type = "punctuation" → i.content ≠ "") →
      srtLoopBlocks cl none et items = [] := by
  induction items with
  | nil => intros; rfl
  | cons item rest ih =>
    intro cl et hcl hpn
    have hrest : ∀ i ∈ rest, i.type = "punctuation" → i.content ≠ "" :=
      fun i hi => hpn i (List.mem_cons_of_mem _ hi)
    have hstn : procSt item cl none = none :=
      procSt_not_restart item cl none (fun hh => hcl hh.2)
    rcases stepEmit_cases item rest.isEmpty cl none et with h | ⟨a, b, hsa, -, -, -⟩
    · rw [hstn] at h
      rw [srtLoopBlocks_cons, h]
      exact ih (procCl item cl) (procEt item et)
        (procCl_ne_empty item cl (Or.inr hcl) (hpn item (List.mem_cons_self item rest)))
        hrest
    · rw [hstn] at hsa
      cases hsa

/-- In a walk segment whose accumulated line is non-empty, the recorded
`startTime` cannot be overwritten, so the first emitted block (if any)
starts at the incoming `startTime`. -/
lemma srtLoopBlocks_head_start (items : List TransItem) :
    ∀ (cl : String) (s : ℚ) (et : Option ℚ), cl ≠ "" →
      (∀ i ∈ items, i.type = "punctuation" → i.content ≠ "") →
      ∀ blk, (srtLoopBlocks cl (some s) et items).head? = some blk → blk.1 = s := by
  induction items with
  | nil => intro cl s et _ _ blk h; cases h
  | cons item rest ih =>
    intro cl s et hcl hpn blk hhead
    have hrest : ∀ i ∈ rest, i.type = "punctuation" → i.content ≠ "" :=
      fun i hi => hpn i (List.mem_cons_of_mem _ hi)
    have hst : procSt item cl (some s) = some s :=
      procSt_not_restart item cl (some s) (fun hh => hcl hh.2)
    rcases stepEmit_cases item rest.isEmpty cl (some s) et
      with h | ⟨a, b, hsa, hetb, hcond, hem⟩
    · rw [hst] at h
      rw [srtLoopBlocks_cons, h] at hhead
      exact ih (procCl item cl) s (procEt item et)
        (procCl_ne_empty item cl (Or.inr hcl) (hpn item (List.mem_cons_self item rest)))
        hrest blk hhead
    · rw [hst] at hsa
      injection hsa with hsa1
      rw [srtLoopBlocks_cons, hem] at hhead
      have hh : some ((a, b, (procCl item cl).trim)) = some blk := hhead
      injection hh with hh1
      rw [← hh1]
      exact hsa1.symm

/-- The `endTime` buffer left over from a previous block never influences the
output: whenever `startTime` is unset (in particular right after an
emission), the walk's output does not depend on the incoming `endTime`. -/
lemma srtLoop_endTime_irrelevant (items : List TransItem) :
    ∀ (idx : Nat) (cl : String) (st et et' : Option ℚ),
      (st.isSome = true → et = et') →
      srtLoop idx cl st et items = srtLoop idx cl st et' items := by
  induction items with
  | nil => intros; rfl
  | cons item rest ih =>
    intro idx cl st et et' hst
    by_cases hp : item.type = "pronunciation"
    · have hetp : procEt item et = procEt item et' := by
        unfold procEt
        rw [if_pos hp, if_pos hp]
      have hsame : stepEmit item rest.isEmpty cl st et
          = stepEmit item rest.isEmpty cl st et' := by
        unfold stepEmit
        rw [hetp]
      rw [srtLoop_cons, srtLoop_cons, hsame]
    · cases st with
      | some s =>
        rw [hst rfl]
      | none =>
        have hstn : procSt item cl none = none :=
          procSt_not_restart item cl none (fun hh => hp hh.1)
        have hetn : procEt item et = et := procEt_non_pron item et hp
        have hetn' : procEt item et' = et' := procEt_non_pron item et' hp
        rcases stepEmit_cases item rest.isEmpty cl none et with h | ⟨a, b, hsa, -, -, -⟩
        · rcases stepEmit_cases item rest.isEmpty cl none et'
            with h' | ⟨a', b', hsa', -, -, -⟩
          · rw [srtLoop_cons, srtLoop_cons, h, h', hstn, hetn, hetn']
            exact ih idx (procCl item cl) none et et' (fun hh => by cases hh)
          · rw [hstn] at hsa'
            cases hsa'
        · rw [hstn] at hsa
          cases hsa

/-- A walk segment containing no pronunciation item, started with no
recorded `startTime`, emits nothing. -/
lemma srtLoop_no_pron (items : List TransItem) :
    ∀ (idx : Nat) (cl : String) (et : Option ℚ),
      (∀ i ∈ items, ¬ i.type = "pronunciation") →
      srtLoop idx cl none et items = "" := by
  induction items with
  | nil => intros; rfl
  | cons item rest ih =>
    intro idx cl et hnp
    have hp : ¬ item.type = "pronunciation" := hnp item (List.mem_cons_self item rest)
    have hstn : procSt item cl none = none :=
      procSt_not_restart item cl none (fun hh => hp hh.1)
    rcases stepEmit_cases item rest.isEmpty cl none et with h | ⟨a, b, hsa, -, -, -⟩
    · rw [hstn] at h
      rw [srtLoop_cons, h]
      exact ih idx (procCl item cl) (procEt item et)
        (fun i hi => hnp i (List.mem_cons_of_mem _ hi))
    · rw [hstn] at hsa
      cases hsa

/-- C10: emission scoping of the item walk.  (1) The `endTime` left over
from a previous emitted block never reaches a newly emitted block even
though the buffer is not reset: whenever `startTime` is unset — as it is
right after every emission — the walk's output is independent of the
incoming `endTime`.  (2) A block is emitted only when a pronunciation item
has been accumulated since the previous block: a segment without
pronunciation items and without a recorded start emits nothing.  (3) The
first block emitted after a reset starts at the `start_time` of the first
pronunciation item of the segment (inert items of other types may precede
it; punctuation items are assumed to carry non-empty text, as AWS emits
them). -/
theorem srtLoop_emission_scoping :
    (∀ (items : List TransItem) (idx : Nat) (cl : String) (st et et' : Option ℚ),
      (st.isSome = true → et = et') →
      srtLoop idx cl st et items = srtLoop idx cl st et' items) ∧
    (∀ (items : List TransItem) (idx : Nat) (cl : String) (et : Option ℚ),
      (∀ i ∈ items, ¬ i.type = "pronunciation") →
      srtLoop idx cl none et items = "") ∧
    (∀ (pre : List TransItem) (p : TransItem) (rest : List TransItem) (et : Option ℚ),
      (∀ i ∈ pre, ¬ i.type = "pronunciation" ∧ ¬ i.type = "punctuation") →
      p.type = "pronunciation" →
      (∀ i ∈ rest, i.type = "punctuation" → i.content ≠ "") →
      ∀ blk, (srtLoopBlocks "" none et (pre ++ p :: rest)).head? = some blk →
        p.start_time = some blk.1) := by
  refine ⟨fun items => srtLoop_endTime_irrelevant items,
    fun items => srtLoop_no_pron items, ?_⟩
  intro pre
  induction pre with
  | nil =>
    intro p rest et _ hp hrest blk hhead
    have hclne : procCl p "" ≠ "" :=
      procCl_ne_empty p "" (Or.inl hp)
        (fun hq => absurd (hp.symm.trans hq) (by decide))
    have hstp : procSt p "" none = p.start_time := procSt_pron_empty p none hp
    rw [List.nil_append] at hhead
    rcases stepEmit_cases p rest.isEmpty "" none et with h | ⟨a, b, hsa, -, -, hem⟩
    · rw [hstp] at h
      rw [srtLoopBlocks_cons, h] at hhead
      cases hsp : p.start_time with
      | none =>
        rw [hsp] at hhead
        have hh2 : (srtLoopBlocks (procCl p "") none (procEt p et) rest).head?
            = some blk := hhead
        rw [srtLoopBlocks_no_start rest (procCl p "") (procEt p et) hclne hrest]
          at hh2
        cases hh2
      | some s =>
        rw [hsp] at hhead
        have hh2 : (srtLoopBlocks (procCl p "") (some s) (procEt p et) rest).head?
            = some blk := hhead
        have hs := srtLoopBlocks_head_start rest (procCl p "") s (procEt p et) hclne
          hrest blk hh2
        rw [hs]
    · rw [hstp] at hsa
      rw [srtLoopBlocks_cons, hem] at hhead
      have hh : some ((a, b, (procCl p "").trim)) = some blk := hhead
      injection hh with hh1
      rw [hsa, ← hh1]
  | cons i pre' ih =>
    intro p rest et hpre hp hrest blk hhead
    have hi := hpre i (List.mem_cons_self i pre')
    have hpre' : ∀ j ∈ pre', ¬ j.type = "pronunciation" ∧ ¬ j.type = "punctuation" :=
      fun j hj => hpre j (List.mem_cons_of_mem _ hj)
    have hstn : procSt i "" none = none :=
      procSt_not_restart i "" none (fun hh => hi.1 hh.1)
    have hcli : procCl i "" = "" := procCl_inert i "" hi.1 hi.2
    have heti : procEt i et = et := procEt_non_pron i et hi.1
    rw [List.cons_append] at hhead
    rcases stepEmit_cases i (pre' ++ p :: rest).isEmpty "" none et
      with h | ⟨a, b, hsa, -, -, -⟩
    · rw [hstn, hcli, heti] at h
      rw [srtLoopBlocks_cons, h] at hhead
      exact ih p rest et hpre' hp hrest blk hhead
    · rw [hstn] at hsa
      cases hsa

/-- Witness for C10: a pronunciation-free segment emits nothing regardless of
the leftover `endTime`; a lone pronunciation item with `start_time` 0 emits a
first block starting at 0; and changing the leftover `endTime` of a
reset-state walk does not change its output. -/
theorem srtLoop_emission_scoping_witness :
    srtLoop 1 "x" none (some 7)
      [(⟨"speaker-change", "", none, none⟩ : TransItem)] = "" ∧
    (⟨"pronunciation", "Hello", some 0, some 1⟩ : TransItem).start_time
      = some ((0 : ℚ), (1 : ℚ),
          (procCl (⟨"pronunciation", "Hello", some 0, some 1⟩ : TransItem) "").trim).1 ∧
    srtLoop 5 "line" none (some 7)
        [(⟨"punctuation", "!", none, none⟩ : TransItem)]
      = srtLoop 5 "line" none none [(⟨"punctuation", "!", none, none⟩ : TransItem)] := by
  refine ⟨?_, ?_, ?_⟩
  · exact srtLoop_emission_scoping.2.1
      [(⟨"speaker-change", "", none, none⟩ : TransItem)] 1 "x" (some 7) (by decide)
  · exact srtLoop_emission_scoping.2.2 []
      (⟨"pronunciation", "Hello", some 0, some 1⟩ : TransItem) [] none
      (by intro i hi; cases hi) rfl (by intro i hi _; cases hi)
      ((0 : ℚ), (1 : ℚ),
        (procCl (⟨"pronunciation", "Hello", some 0, some 1⟩ : TransItem) "").trim)
      rfl
  · exact srtLoop_emission_scoping.1
      [(⟨"punctuation", "!", none, none⟩ : TransItem)] 5 "line" none (some 7) none
      (by intro h; cases h)

lemma fmt5 : formatSrtTime 5 = "00:00:05,000" := by
  rw [formatSrtTime_eq_spec _ (by norm_num)]
  unfold formatSrtTimeSpec
  norm_num
  decide

lemma fmt55 : formatSrtTime (11 / 2) = "00:00:05,500" := by
  rw [formatSrtTime_eq_spec _ (by norm_num)]
  unfold formatSrtTimeSpec
  norm_num
  decide

lemma fmt10 : formatSrtTime 10 = "00:00:10,000" := by
  rw [formatSrtTime_eq_spec _ (by norm_num)]
  unfold formatSrtTimeSpec
  norm_num
  decide

lemma fmt105 : formatSrtTime (21 / 2) = "00:00:10,500" := by
  rw [formatSrtTime_eq_spec _ (by norm_num)]
  unfold formatSrtTimeSpec
  norm_num
  decide

lemma fmt15 : formatSrtTime 15 = "00:00:15,000" := by
  rw [formatSrtTime_eq_spec _ (by norm_num)]
  unfold formatSrtTimeSpec
  norm_num
  decide

lemma simulate_srt_blocks (fileName : String) :
    (simulateTranscription fileName).srtContent =
      renderBlocksFrom 1
        [(0, 5, "This is a simulated transcription for "
            ++ stripExtension fileName ++ "."),
         (11 / 2, 10, "The actual transcription service encountered an error."),
         (21 / 2, 15, "Please check your AWS credentials and try again.")] := by
  show "1\n00:00:00,000 --> 00:00:05,000\nThis is a simulated transcription for "
        ++ stripExtension fileName ++ ".\n\n"
      ++ "2\n00:00:05,500 --> 00:00:10,000\nThe actual transcription service encountered an error.\n\n"
      ++ "3\n00:00:10,500 --> 00:00:15,000\nPlease check your AWS credentials and try again.\n\n"
    = renderBlock 1 0 5 ("This is a simulated transcription for "
        ++ stripExtension fileName ++ ".")
      ++ (renderBlock 2 (11 / 2) 10 "The actual transcription service encountered an error."
      ++ (renderBlock 3 (21 / 2) 15 "Please check your AWS credentials and try again."
      ++ ""))
  rw [show renderBlock 2 (11 / 2) 10 "The actual transcription service encountered an error."
      = "2\n00:00:05,500 --> 00:00:10,000\nThe actual transcription service encountered an error.\n\n" from by
    unfold renderBlock
    rw [fmt55, fmt10]
    decide]
  rw [show renderBlock 3 (21 / 2) 15 "Please check your AWS credentials and try again."
      = "3\n00:00:10,500 --> 00:00:15,000\nPlease check your AWS credentials and try again.\n\n" from by
    unfold renderBlock
    rw [fmt105, fmt15]
    decide]
  rw [String.append_empty]
  unfold renderBlock
  rw [formatSrtTime_zero, fmt5]
  rw [show toString (1 : Nat) ++ "\n" ++ "00:00:00,000" ++ " --> " ++ "00:00:05,000"
      ++ "\n" = "1\n00:00:00,000 --> 00:00:05,000\n" from by decide]
  simp only [← String.append_assoc]
  rw [String.append_assoc _ "." "\n\n"]
  rw [show ("." : String) ++ "\n\n" = ".\n\n" from by decide]
  rw [show ("1\n00:00:00,000 --> 00:00:05,000\n" : String)
      ++ "This is a simulated transcription for "
      = "1\n00:00:00,000 --> 00:00:05,000\nThis is a simulated transcription for "
      from by decide]

/-- C6: on non-negative inputs (65.5 s and 3661.001 s are written as exact
rationals; the nearest IEEE-754 doubles give the same components, checked
separately) the formatter agrees with the truncating integer decomposition
`formatSrtTimeSpec` — `HH:MM:SS,mmm`, each component zero-padded, every
sub-unit truncated, never rounded — and in particular maps 0 to
`00:00:00,000`, 65.5 to `00:01:05,500` and 3661.001 to `01:01:01,001`. -/
theorem formatSrtTime_truncates :
    (∀ q : ℚ, 0 ≤ q → formatSrtTime q = formatSrtTimeSpec q) ∧
    formatSrtTime 0 = "00:00:00,000" ∧
    formatSrtTime (131 / 2) = "00:01:05,500" ∧
    formatSrtTime (3661001 / 1000) = "01:01:01,001" := by
  refine ⟨fun q hq => formatSrtTime_eq_spec q hq, formatSrtTime_zero, ?_, ?_⟩
  · rw [formatSrtTime_eq_spec _ (by norm_num)]
    unfold formatSrtTimeSpec
    norm_num
    decide
  · rw [formatSrtTime_eq_spec _ (by norm_num)]
    unfold formatSrtTimeSpec
    norm_num
    decide

/-- Witness for C6: the general truncating-decomposition statement applied
at the concrete input 0. -/
theorem formatSrtTime_truncates_witness :
    formatSrtTime 0 = formatSrtTimeSpec 0 :=
  formatSrtTime_truncates.1 0 (le_refl 0)

/-- C1: `transcribeAudio` never raises — it is total, and for every
environment it either returns the pipeline's successful result or, on any
pipeline failure (upload, submission, polling timeout, retrieval, parse),
the Fallback Generator's result; and the fallback result consists of exactly
3 subtitle blocks (rendered with indices 1, 2, 3 at 0–5 s, 5.5–10 s and
10.5–15 s) with duration string `"0:15"`. -/
theorem transcribeAudio_never_raises :
    (∀ (env : PipelineEnv) (fileName language : String),
      (∃ r, runPipeline env fileName language = Except.ok r ∧
        transcribeAudio env fileName language = r) ∨
      (∃ e, runPipeline env fileName language = Except.error e ∧
        transcribeAudio env fileName language = simulateTranscription fileName)) ∧
    (∀ fileName,
      (simulateTranscription fileName).srtContent = renderBlocksFrom 1
        [(0, 5, "This is a simulated transcription for "
            ++ stripExtension fileName ++ "."),
         (11 / 2, 10, "The actual transcription service encountered an error."),
         (21 / 2, 15, "Please check your AWS credentials and try again.")] ∧
      (simulateTranscription fileName).duration = "0:15") := by
  constructor
  · intro env fileName language
    cases h : runPipeline env fileName language with
    | ok r =>
      refine Or.inl ⟨r, rfl, ?_⟩
      unfold transcribeAudio
      rw [h]
    | error e =>
      refine Or.inr ⟨e, rfl, ?_⟩
      unfold transcribeAudio
      rw [h]
  · intro fileName
    exact ⟨simulate_srt_blocks fileName, rfl⟩

/-- C9: every fallback result has `rawTranscriptData` absent, every real
pipeline success has it present (the parsed transcript), and hence the
caller can read that field to tell a real success from a fallback:
the returned result's `rawTranscriptData` is present iff the pipeline
actually succeeded. -/
theorem rawTranscriptData_distinguishes :
    (∀ fileName, (simulateTranscription fileName).rawTranscriptData = none) ∧
    (∀ (env : PipelineEnv) (fileName language : String) (r : TranscribeResult),
      runPipeline env fileName language = Except.ok r →
      r.rawTranscriptData.isSome = true) ∧
    (∀ (env : PipelineEnv) (fileName language : String),
      ((transcribeAudio env fileName language).rawTranscriptData).isSome = true ↔
        ∃ r, runPipeline env fileName language = Except.ok r) := by
  have hok : ∀ (env : PipelineEnv) (fileName language : String) (r : TranscribeResult),
      runPipeline env fileName language = Except.ok r →
      r.rawTranscriptData.isSome = true := by
    intro env fileName language r h
    unfold runPipeline at h
    repeat any_goals split at h
    all_goals
      first
        | exact Except.noConfusion h
        | (injection h with h1; rw [← h1]; rfl)
  refine ⟨fun _ => rfl, hok, ?_⟩
  intro env fileName language
  constructor
  · intro h
    cases hp : runPipeline env fileName language with
    | ok r => exact ⟨r, rfl⟩
    | error e =>
      unfold transcribeAudio at h
      rw [hp] at h
      have hnone : (simulateTranscription fileName).rawTranscriptData = none := rfl
      rw [hnone] at h
      cases h
  · rintro ⟨r, hr⟩
    unfold transcribeAudio
    rw [hr]
    exact hok env fileName language r hr

/-- Witness for C9: a concrete fallback result carries no raw transcript,
and a concrete fully-successful environment (upload succeeds, job starts,
first poll reports `COMPLETED` with a transcript URI, fetch/parse succeeds)
yields a result whose `rawTranscriptData` is present. -/
theorem rawTranscriptData_distinguishes_witness :
    (simulateTranscription "a.mp3").rawTranscriptData = none ∧
    ((transcribeAudio
        { nowMs := 0, bucket := "b"
        , upload := fun _ => Except.ok ()
        , startJob := fun _ => Except.ok ()
        , poll := fun _ => PollResult.ok
            (some ⟨some "COMPLETED", none, some "uri"⟩)
        , fetchParse := fun _ => Except.ok { results := none } }
        "a.mp3" "ta-IN").rawTranscriptData).isSome = true := by
  refine ⟨rawTranscriptData_distinguishes.1 "a.mp3", ?_⟩
  exact (rawTranscriptData_distinguishes.2.2 _ "a.mp3" "ta-IN").mpr
    ⟨{ srtContent := convertTranscriptToSrt { results := none }
     , duration := durationOf { results := none }
     , rawTranscriptData := some { results := none } }, rfl⟩
